import Mathlib

/-!
Verification development for the multi-timer core of the work-activity
tracker (`src/components/MultiActivityTimer.tsx`).

The component keeps a list `activities : ActiveActivity[]` in memory.  UI
commands (`startNewActivity`, `togglePause`, `stopActivity`, `cancelActivity`,
`updateActivityProject`, `toggleActivityTag`) issue storage requests against
the `active_activities` table; a realtime change feed delivers
INSERT / UPDATE / DELETE events whose handlers fold the rows back into the
local list.  Per-record intervals recompute the displayed elapsed time of
running records.

Timestamps and durations are JS numbers (milliseconds); they are modelled as
`Int` because the code performs unclamped subtraction that can go negative.
-/

namespace PslTracker

/-- The `ActiveActivity` interface of `MultiActivityTimer.tsx` (lines 14-24):
one in-flight timer with id, display name (`description` column), start
instant (`startTime.getTime()` in ms), the last computed elapsed value,
running / paused flags, accumulated pause milliseconds, and the optional
project and tag associations. -/
structure ActiveActivity where
  id : String
  name : String
  startTime : Int
  elapsedTime : Int
  isRunning : Bool
  isPaused : Bool
  pausedTime : Int
  projectId : Option String
  tagIds : List String
deriving Repr, DecidableEq

/-- A row of the `active_activities` table as carried by a change-feed
payload.  `paused_time` is a nullable INTEGER column and `project_id` a
nullable UUID column, hence the `Option` types. -/
structure ActivityRow where
  id : String
  description : String
  start_time : Int
  elapsed_time : Int
  is_running : Bool
  paused_time : Option Int
  project_id : Option String
deriving Repr, DecidableEq

/-- JS truthiness fallback `x || 0` applied to the nullable `paused_time`
column: `null` becomes `0`, any number is kept (`0 || 0` is `0`). -/
def jsNumberOrZero (o : Option Int) : Int :=
  match o with
  | none => 0
  | some n => n

/-- JS truthiness fallback `x || undefined` applied to the nullable
`project_id` column: `null` and the empty string become `undefined`. -/
def jsStringOrNone (o : Option String) : Option String :=
  match o with
  | none => none
  | some s => if s = "" then none else some s

/-- Reconstruction of an `ActiveActivity` from a feed row plus its tag ids,
as done by the INSERT handler (lines 127-137) and by the initial load
(lines 74-84): `isPaused` is derived as the negation of `is_running`. -/
def recordOfRow (row : ActivityRow) (rowTags : List String) : ActiveActivity :=
  { id := row.id
    name := row.description
    startTime := row.start_time
    elapsedTime := row.elapsed_time
    isRunning := row.is_running
    isPaused := !row.is_running
    pausedTime := jsNumberOrZero row.paused_time
    projectId := jsStringOrNone row.project_id
    tagIds := rowTags }

/-- Realtime INSERT handler (lines 139-160): if a record with the incoming
id is already present the list is returned unchanged, otherwise the
reconstructed record is appended. -/
def applyInsert (acts : List ActiveActivity) (row : ActivityRow)
    (rowTags : List String) : List ActiveActivity :=
  if acts.any (fun a => a.id == row.id) then acts
  else acts ++ [recordOfRow row rowTags]

/-- Body of the realtime UPDATE handler's map (lines 164-204): the record
matching the incoming id gets the row's `elapsed_time`, `is_running` (with
`isPaused` its negation), `paused_time || 0` and `project_id || undefined`;
every other record is untouched. -/
def applyUpdateRecord (row : ActivityRow) (act : ActiveActivity) : ActiveActivity :=
  if act.id == row.id then
    { act with
      elapsedTime := row.elapsed_time
      isRunning := row.is_running
      isPaused := !row.is_running
      pausedTime := jsNumberOrZero row.paused_time
      projectId := jsStringOrNone row.project_id }
  else act

/-- Realtime UPDATE handler (lines 161-205). -/
def applyUpdate (acts : List ActiveActivity) (row : ActivityRow) : List ActiveActivity :=
  acts.map (applyUpdateRecord row)

/-- Realtime DELETE handler (lines 206-213): drop the record with the
deleted id; no Completion Sink call appears in this handler. -/
def applyDelete (acts : List ActiveActivity) (oldId : String) : List ActiveActivity :=
  acts.filter (fun a => a.id != oldId)

/-- Body of one interval firing for the timer with identifier `id`
(lines 91-98, 147-155, 174-182, 310-318, all four interval callbacks are
identical): a record that matches the id, is running and not paused gets
`elapsedTime := now - startTime - pausedTime`; every other record — in
particular every paused record — is untouched. -/
def tickRecord (id : String) (now : Int) (a : ActiveActivity) : ActiveActivity :=
  if a.id == id && a.isRunning && !a.isPaused then
    { a with elapsedTime := now - a.startTime - a.pausedTime }
  else a

/-- One firing of the interval belonging to timer `id`, over the whole
`activities` list. -/
def tickActivity (id : String) (now : Int) (acts : List ActiveActivity) :
    List ActiveActivity :=
  acts.map (tickRecord id now)

/-- The storage UPDATE request issued by `togglePause` (lines 287-294):
the new running flag, the new accumulated pause and the frozen elapsed
value written for the targeted row. -/
structure UpdateRequest where
  id : String
  is_running : Bool
  paused_time : Int
  elapsed_time : Int
deriving Repr, DecidableEq

/-- `togglePause` (lines 278-321) as it acts in the calling session: it
looks the record up, computes `newIsPaused` as the negation of the current
flag, computes the new accumulated pause (on resume it adds
`now - startTime - elapsedTime`, with no clamping; on pause it leaves the
value unchanged), and issues the storage UPDATE.  It never calls
`setActivities`: the first component (the local list) is returned
unchanged, the flags arrive later through the realtime UPDATE event. -/
def togglePauseLocal (acts : List ActiveActivity) (id : String) (now : Int) :
    List ActiveActivity × Option UpdateRequest :=
  match acts.find? (fun a => a.id == id) with
  | none => (acts, none)
  | some activity =>
    let newIsPaused := !activity.isPaused
    let newPausedTime :=
      if newIsPaused then activity.pausedTime
      else activity.pausedTime + (now - activity.startTime - activity.elapsedTime)
    (acts,
      some { id := id
             is_running := !newIsPaused
             paused_time := newPausedTime
             elapsed_time := activity.elapsedTime })

/-- Net effect of `togglePause` on the targeted record once its storage
UPDATE (lines 287-294) is folded back by the realtime UPDATE handler
(lines 194-201): flags flipped, `elapsedTime` rewritten with the frozen
value (hence unchanged), `pausedTime` rewritten with the value computed at
lines 283-285 — unchanged when entering pause, increased by
`now - startTime - elapsedTime` (unclamped) when resuming. -/
def togglePauseRecord (a : ActiveActivity) (now : Int) : ActiveActivity :=
  let newIsPaused := !a.isPaused
  let newPausedTime :=
    if newIsPaused then a.pausedTime
    else a.pausedTime + (now - a.startTime - a.elapsedTime)
  { a with
    isRunning := !newIsPaused
    isPaused := newIsPaused
    pausedTime := newPausedTime }

/-- The completion snapshot handed to the `onActivityComplete` Completion
Sink by `stopActivity` (lines 348-355). -/
structure CompletedActivity where
  name : String
  duration : Int
  startTime : Int
  endTime : Int
  projectId : Option String
  tagIds : List String
deriving Repr, DecidableEq

/-- `stopActivity` (lines 323-356): find the record (silently return when
absent), issue the storage delete (which triggers the realtime DELETE that
removes the record locally, see `applyDelete`), and invoke the Completion
Sink with the snapshot whose `endTime` is
`startTime.getTime() + elapsedTime` (line 333) — the frozen elapsed value,
no wall-clock instant is read. -/
def stopActivity (acts : List ActiveActivity) (id : String) : Option CompletedActivity :=
  match acts.find? (fun a => a.id == id) with
  | none => none
  | some activity =>
    some { name := activity.name
           duration := activity.elapsedTime
           startTime := activity.startTime
           endTime := activity.startTime + activity.elapsedTime
           projectId := activity.projectId
           tagIds := activity.tagIds }

/-- `cancelActivity` (lines 358-375): issue the storage delete for the id
(first component) and invoke the Completion Sink never — the returned list
of sink invocations is empty; the local removal happens through the
realtime DELETE handler, which contains no sink call either. -/
def cancelActivity (id : String) : String × List CompletedActivity :=
  (id, [])

/-- JS `String.prototype.trim()` on the strings at hand: strip whitespace
from both ends, implemented on the character list so that it is fully
executable. -/
def jsTrim (s : String) : String :=
  String.mk (((s.data.dropWhile Char.isWhitespace).reverse.dropWhile
    Char.isWhitespace).reverse)

/-- The storage INSERT request issued by `startNewActivity`
(lines 255-266). -/
structure InsertRequest where
  user_id : String
  description : String
  start_time : Int
  elapsed_time : Int
  is_running : Bool
  paused_time : Int
deriving Repr, DecidableEq

/-- The component state touched by `startNewActivity`: the `activities`
list and the `newActivityName` input field. -/
structure TimerState where
  activities : List ActiveActivity
  newActivityName : String
deriving Repr, DecidableEq

/-- `startNewActivity` (lines 250-276): when the trimmed name is empty it
returns before doing anything; otherwise it issues the storage INSERT
(`elapsed_time` 0, `is_running` true, `paused_time` 0) and clears the
input field.  It does not touch `activities`: the comment at line 275
notes the record is added via the realtime subscription. -/
def startNewActivity (st : TimerState) (userId : String) (now : Int) :
    TimerState × Option InsertRequest :=
  if jsTrim st.newActivityName = "" then (st, none)
  else
    ({ st with newActivityName := "" },
      some { user_id := userId
             description := st.newActivityName
             start_time := now
             elapsed_time := 0
             is_running := true
             paused_time := 0 })

/-- `toggleActivityTag` (lines 394-435): look the record up (silently
return when absent), decide `isAdding` from that record's current tag list,
issue the association insert or delete, then on success update the local
list: the matching record's tag list gets the tag appended
(`[...act.tagIds, tagId]`) or filtered out (`filter(t => t !== tagId)`);
other records are untouched. -/
def toggleActivityTag (acts : List ActiveActivity) (id : String) (tagId : String) :
    List ActiveActivity :=
  match acts.find? (fun a => a.id == id) with
  | none => acts
  | some activity =>
    let isAdding := !(activity.tagIds.contains tagId)
    acts.map fun act =>
      if act.id == id then
        { act with
          tagIds :=
            if isAdding then act.tagIds ++ [tagId]
            else act.tagIds.filter (fun t => t != tagId) }
      else act

/-- Normal form of the tag-list edit performed by `toggleActivityTag` on
the targeted record: remove the tag when present, append it when absent. -/
def toggleTagIds (l : List String) (tagId : String) : List String :=
  if l.contains tagId then l.filter (fun t => t != tagId)
  else l ++ [tagId]

/-- Normal form of `toggleActivityTag`'s map body once the looked-up record
is known to be the unique record with the given id. -/
def toggleTagRecord (id : String) (tagId : String) (act : ActiveActivity) :
    ActiveActivity :=
  if act.id == id then { act with tagIds := toggleTagIds act.tagIds tagId }
  else act

/-- A running record: started at instant 0, nothing accumulated. -/
def sampleRunning : ActiveActivity :=
  ⟨"a", "Write report", 0, 0, true, false, 0, none, []⟩

/-- A paused record with 1000 ms of frozen elapsed time and one tag. -/
def samplePaused : ActiveActivity :=
  ⟨"b", "Read mail", 0, 1000, false, true, 0, none, ["t1"]⟩

/-- A paused record whose frozen elapsed value (5000 ms) exceeds the
wall-clock delta available at resume time — the situation produced by a
backwards clock step or by a stale feed row. -/
def sampleSkewed : ActiveActivity :=
  ⟨"c", "Skewed", 0, 5000, false, true, 0, none, []⟩

/-- A running record whose accumulated pause (2000 ms) exceeds the
wall-clock delta at the next tick (again clock skew / stale feed data). -/
def sampleAhead : ActiveActivity :=
  ⟨"d", "Ahead", 0, 0, true, false, 2000, none, []⟩

/-! ## Helper lemmas -/

/-- In the pairing of a list with its image under `f`, every pair consists
of an element of the list and its image. -/
theorem zip_map_pair {α β : Type} (f : α → β) :
    ∀ (l : List α), ∀ p ∈ l.zip (l.map f), p.2 = f p.1 ∧ p.1 ∈ l := by
  intro l
  induction l with
  | nil => intro p hp; simp [List.zip] at hp
  | cons x xs ih =>
    intro p hp
    simp only [List.map_cons, List.zip_cons_cons, List.mem_cons] at hp
    rcases hp with rfl | hp
    · simp
    · obtain ⟨h1, h2⟩ := ih p hp
      exact ⟨h1, List.mem_cons_of_mem _ h2⟩

/-! ## C1: stop uses the frozen elapsed value -/

/-- C1: for a record present in the active set, `stopActivity` hands the
Completion Sink the snapshot whose end instant is
`startInstant + elapsedMillis-at-stop` (no wall-clock instant occurs in the
computation: `stopActivity` takes no `now` argument), with the frozen
elapsed value as duration and the record's name, start, project and tags;
the storage delete it issues triggers the realtime DELETE whose handler
removes every record with that id from the active set. -/
theorem stop_frozen_end (acts : List ActiveActivity) (id : String)
    (a : ActiveActivity) (h : acts.find? (fun x => x.id == id) = some a) :
    stopActivity acts id =
      some { name := a.name
             duration := a.elapsedTime
             startTime := a.startTime
             endTime := a.startTime + a.elapsedTime
             projectId := a.projectId
             tagIds := a.tagIds }
    ∧ ∀ b ∈ applyDelete acts id, b.id ≠ id := by
  constructor
  · simp [stopActivity, h]
  · intro b hb
    simp only [applyDelete, List.mem_filter, bne_iff_ne, ne_eq] at hb
    exact hb.2

/-- Witness for C1 at the concrete paused record `samplePaused`: stopping
yields end instant 0 + 1000 and duration 1000 regardless of when the stop
is issued. -/
theorem stop_frozen_end_witness :
    stopActivity [samplePaused] "b" =
      some { name := samplePaused.name
             duration := samplePaused.elapsedTime
             startTime := samplePaused.startTime
             endTime := samplePaused.startTime + samplePaused.elapsedTime
             projectId := samplePaused.projectId
             tagIds := samplePaused.tagIds }
    ∧ ∀ b ∈ applyDelete [samplePaused] "b", b.id ≠ "b" :=
  stop_frozen_end [samplePaused] "b" samplePaused (by decide)

/-! ## C2: pause / resume idempotence -/

/-- C2 counterexample: the code's only pause operation is the toggle
`togglePause`; invoking it on an already-paused record is not a no-op (it
resumes the record), and invoking it twice in a row does not have the same
effect on the record's state as invoking it once (the flags end up
opposite). -/
theorem togglePause_not_idempotent_cex :
    togglePauseRecord samplePaused 2000 ≠ samplePaused
    ∧ (togglePauseRecord samplePaused 2000).isRunning = true
    ∧ togglePauseRecord (togglePauseRecord sampleRunning 1000) 2000
        ≠ togglePauseRecord sampleRunning 1000
    ∧ (togglePauseRecord (togglePauseRecord sampleRunning 1000) 2000).isPaused
        ≠ (togglePauseRecord sampleRunning 1000).isPaused := by
  decide

/-- C2 amended: pause and resume are a single toggle operation
(`togglePause`): it always flips the paused flag, so invoking it on a
paused record resumes it rather than being a no-op, and invoking it twice
restores the original flag instead of equalling one invocation.  The
duplicate-event tolerance the code does provide sits in the feed handler:
applying the same realtime UPDATE row twice in a row has the same effect
on the active set as applying it once. -/
theorem togglePause_toggle_and_update_idem (a : ActiveActivity) (now : Int)
    (now2 : Int) (acts : List ActiveActivity) (row : ActivityRow) :
    (togglePauseRecord a now).isPaused = !a.isPaused
    ∧ (togglePauseRecord a now).isRunning = a.isPaused
    ∧ (togglePauseRecord (togglePauseRecord a now) now2).isPaused = a.isPaused
    ∧ applyUpdate (applyUpdate acts row) row = applyUpdate acts row := by
  refine ⟨rfl, by simp [togglePauseRecord], by simp [togglePauseRecord], ?_⟩
  simp only [applyUpdate, List.map_map]
  apply List.map_congr_left
  intro b _
  simp only [Function.comp_apply, applyUpdateRecord]
  cases h : b.id == row.id
  · simp [h]
  · simp [h]

/-- Witness for C2's amended statement at a concrete paused record and a
concrete one-row set. -/
theorem togglePause_toggle_and_update_idem_witness :
    (togglePauseRecord samplePaused 2000).isPaused = !samplePaused.isPaused
    ∧ (togglePauseRecord samplePaused 2000).isRunning = samplePaused.isPaused
    ∧ (togglePauseRecord (togglePauseRecord samplePaused 2000) 3000).isPaused
        = samplePaused.isPaused
    ∧ applyUpdate (applyUpdate [sampleRunning]
          ⟨"a", "Write report", 0, 3000, false, some 500, none⟩)
          ⟨"a", "Write report", 0, 3000, false, some 500, none⟩
        = applyUpdate [sampleRunning]
          ⟨"a", "Write report", 0, 3000, false, some 500, none⟩ :=
  togglePause_toggle_and_update_idem samplePaused 2000 3000 [sampleRunning]
    ⟨"a", "Write report", 0, 3000, false, some 500, none⟩

/-! ## C3: displayed elapsed time under ticks -/

/-- C3: when the interval of timer `id` fires at instant `now`, the record
that is running and not paused gets displayed elapsed time
`now - startInstant - accumulatedPause`, and a paused record is left
exactly as it was — ticks do not change its frozen elapsed value. -/
theorem tick_elapsed_spec (acts : List ActiveActivity) (id : String)
    (now : Int) (p : ActiveActivity × ActiveActivity)
    (hp : p ∈ acts.zip (tickActivity id now acts)) :
    (p.1.id = id → p.1.isRunning = true → p.1.isPaused = false →
      p.2.elapsedTime = now - p.1.startTime - p.1.pausedTime)
    ∧ (p.1.isPaused = true → p.2 = p.1) := by
  obtain ⟨h2, _⟩ := zip_map_pair (tickRecord id now) acts p hp
  constructor
  · intro hid hrun hpause
    rw [h2]
    simp [tickRecord, hid, hrun, hpause]
  · intro hpause
    rw [h2]
    simp [tickRecord, hpause]

/-- Witness for C3: a tick at instant 2000 on the concrete running record
started at 0 with no accumulated pause displays 2000 ms. -/
theorem tick_elapsed_spec_witness :
    (sampleRunning.id = "a" → sampleRunning.isRunning = true →
      sampleRunning.isPaused = false →
      (tickRecord "a" 2000 sampleRunning).elapsedTime
        = 2000 - sampleRunning.startTime - sampleRunning.pausedTime)
    ∧ (sampleRunning.isPaused = true →
        tickRecord "a" 2000 sampleRunning = sampleRunning) :=
  tick_elapsed_spec [sampleRunning] "a" 2000
    (sampleRunning, tickRecord "a" 2000 sampleRunning) (by decide)

/-! ## C4: non-negativity of elapsed time -/

/-- C4 counterexample: no clamping exists in the code.  Resuming
`sampleSkewed` (frozen elapsed 5000) at instant 1000 adds the unclamped
pause delta `1000 - 0 - 5000 = -4000` to `accumulatedPause`, which becomes
negative; and a tick at instant `1000 ≥ startInstant = 0` on `sampleAhead`
(accumulated pause 2000) computes the negative elapsed value `-1000`. -/
theorem elapsed_negative_unclamped_cex :
    (togglePauseRecord sampleSkewed 1000).pausedTime = -4000
    ∧ (togglePauseRecord sampleSkewed 1000).pausedTime < 0
    ∧ sampleAhead.startTime ≤ 1000
    ∧ sampleAhead.isRunning = true ∧ sampleAhead.isPaused = false
    ∧ (tickRecord "d" 1000 sampleAhead).elapsedTime = -1000
    ∧ (tickRecord "d" 1000 sampleAhead).elapsedTime < 0 := by
  decide

/-- C4 amended: the code performs no clamping — on resume the raw delta
`now - startInstant - elapsedMillis` is added to `accumulatedPause` as is —
and the displayed elapsed value of a running record is non-negative exactly
on the instants with `now ≥ startInstant + accumulatedPause`; under that
no-skew hypothesis a tick never displays a negative value. -/
theorem tick_elapsed_nonneg (acts : List ActiveActivity) (id : String)
    (now : Int) (p : ActiveActivity × ActiveActivity)
    (hp : p ∈ acts.zip (tickActivity id now acts))
    (hid : p.1.id = id) (hrun : p.1.isRunning = true)
    (hpause : p.1.isPaused = false)
    (hnow : p.1.startTime + p.1.pausedTime ≤ now)
    (a : ActiveActivity) (now2 : Int) (hapause : a.isPaused = true) :
    0 ≤ p.2.elapsedTime
    ∧ (togglePauseRecord a now2).pausedTime
        = a.pausedTime + (now2 - a.startTime - a.elapsedTime) := by
  obtain ⟨h2, _⟩ := zip_map_pair (tickRecord id now) acts p hp
  constructor
  · rw [h2]
    simp only [tickRecord, hid, hrun, hpause]
    simp
    omega
  · simp [togglePauseRecord, hapause]

/-- Witness for C4's amended statement: tick of the concrete running record
at instant 2000 is non-negative, and the resume delta formula at the
concrete paused record is the raw difference. -/
theorem tick_elapsed_nonneg_witness :
    0 ≤ (tickRecord "a" 2000 sampleRunning).elapsedTime
    ∧ (togglePauseRecord samplePaused 2000).pausedTime
        = samplePaused.pausedTime
          + (2000 - samplePaused.startTime - samplePaused.elapsedTime) :=
  tick_elapsed_nonneg [sampleRunning] "a" 2000
    (sampleRunning, tickRecord "a" 2000 sampleRunning) (by decide)
    (by decide) (by decide) (by decide) (by decide) samplePaused 2000
    (by decide)

/-! ## C5: evolution of the accumulated pause -/

/-- C5 counterexample: `accumulatedPause` does not change when a running
record transitions to paused; it changes at the opposite transition.
Resuming the concrete paused record at instant 5000 — a paused-to-running
transition — changes `pausedTime` from 0 to 4000, and the realtime UPDATE
handler can decrease it: applying a row with `paused_time = 0` to a record
holding 500 yields 0. -/
theorem accumulatedPause_transition_cex :
    samplePaused.isRunning = false
    ∧ (togglePauseRecord samplePaused 5000).isRunning = true
    ∧ (togglePauseRecord samplePaused 5000).pausedTime ≠ samplePaused.pausedTime
    ∧ (togglePauseRecord sampleRunning 1000).isPaused = true
    ∧ (togglePauseRecord sampleRunning 1000).pausedTime = sampleRunning.pausedTime
    ∧ (applyUpdateRecord ⟨"e", "Held", 0, 100, true, some 0, none⟩
          ⟨"e", "Held", 0, 100, true, false, 500, none, []⟩).pausedTime
        < (⟨"e", "Held", 0, 100, true, false, 500, none, []⟩ :
            ActiveActivity).pausedTime := by
  decide

/-- C5 amended: `togglePause` leaves `accumulatedPause` unchanged at the
running-to-paused transition and adds the (unclamped) pause span
`now - startInstant - elapsedMillis` at the paused-to-running transition;
besides that, the realtime UPDATE handler overwrites it with whatever
`paused_time` the incoming row carries (last-write-wins), which may be
smaller than the current value. -/
theorem pausedTime_update_spec (a : ActiveActivity) (now : Int)
    (row : ActivityRow) (b : ActiveActivity) (hb : b.id = row.id) :
    (a.isPaused = false → (togglePauseRecord a now).pausedTime = a.pausedTime)
    ∧ (a.isPaused = true → (togglePauseRecord a now).pausedTime
        = a.pausedTime + (now - a.startTime - a.elapsedTime))
    ∧ (applyUpdateRecord row b).pausedTime = jsNumberOrZero row.paused_time := by
  refine ⟨?_, ?_, ?_⟩
  · intro h; simp [togglePauseRecord, h]
  · intro h; simp [togglePauseRecord, h]
  · simp [applyUpdateRecord, hb]

/-- Witness for C5's amended statement at the concrete paused record and a
concrete feed row. -/
theorem pausedTime_update_spec_witness :
    (samplePaused.isPaused = false →
      (togglePauseRecord samplePaused 2000).pausedTime = samplePaused.pausedTime)
    ∧ (samplePaused.isPaused = true →
        (togglePauseRecord samplePaused 2000).pausedTime
          = samplePaused.pausedTime
            + (2000 - samplePaused.startTime - samplePaused.elapsedTime))
    ∧ (applyUpdateRecord ⟨"b", "Read mail", 0, 1000, false, some 77, none⟩
          samplePaused).pausedTime
        = jsNumberOrZero (some 77) :=
  pausedTime_update_spec samplePaused 2000
    ⟨"b", "Read mail", 0, 1000, false, some 77, none⟩ samplePaused (by decide)

/-! ## C6: empty-name rejection -/

/-- C6: when the trimmed activity name is empty, `startNewActivity` returns
before any mutation: the component state (in particular the active set) is
unchanged and no storage INSERT is issued. -/
theorem startNew_invalid_input (st : TimerState) (uid : String) (now : Int)
    (h : jsTrim st.newActivityName = "") :
    startNewActivity st uid now = (st, none) := by
  simp [startNewActivity, h]

/-- Witness for C6: a whitespace-only name leaves the state untouched and
issues nothing. -/
theorem startNew_invalid_input_witness :
    startNewActivity ⟨[samplePaused], "   "⟩ "user1" 1000
      = (⟨[samplePaused], "   "⟩, none) :=
  startNew_invalid_input ⟨[samplePaused], "   "⟩ "user1" 1000 (by decide)

/-! ## C7: tolerance of redelivered / reordered feed events -/

/-- The UPDATE handler leaves a set without the incoming id unchanged. -/
theorem applyUpdate_absent (acts : List ActiveActivity) (row : ActivityRow)
    (h : ∀ a ∈ acts, a.id ≠ row.id) : applyUpdate acts row = acts := by
  induction acts with
  | nil => rfl
  | cons x xs ih =>
    have hx : (x.id == row.id) = false := by
      simpa using h x (by simp)
    have hxs : applyUpdate xs row = xs := ih fun a ha => h a (by simp [ha])
    simp only [applyUpdate, List.map_cons] at hxs ⊢
    rw [hxs]
    simp [applyUpdateRecord, hx]

/-- The DELETE handler leaves a set without the incoming id unchanged. -/
theorem applyDelete_absent (acts : List ActiveActivity) (oldId : String)
    (h : ∀ a ∈ acts, a.id ≠ oldId) : applyDelete acts oldId = acts := by
  simp only [applyDelete]
  exact List.filter_eq_self.mpr fun a ha => by simpa using h a ha

/-- The INSERT handler preserves per-id uniqueness of the active set. -/
theorem applyInsert_nodup (acts : List ActiveActivity) (row : ActivityRow)
    (tags : List String) (h : (acts.map fun a => a.id).Nodup) :
    ((applyInsert acts row tags).map fun a => a.id).Nodup := by
  unfold applyInsert
  cases hany : acts.any fun a => a.id == row.id
  · have hnot : row.id ∉ acts.map fun a => a.id := by
      intro hmem
      obtain ⟨a, ha, haid⟩ := List.mem_map.mp hmem
      have := (List.any_eq_false.mp hany) a ha
      simp [haid] at this
    simp only [Bool.false_eq_true, if_false, List.map_append]
    refine List.Nodup.append h (by simp) ?_
    intro x hx hx2
    simp only [recordOfRow, List.map_cons, List.map_nil, List.mem_singleton] at hx2
    exact hnot (hx2 ▸ hx)
  · simpa [hany] using h

/-- C7: the feed handlers tolerate redelivery and reordering — an INSERT
whose id is already present, an UPDATE whose id is absent and a DELETE
whose id is absent each leave the active set unchanged (all handlers are
total functions, no exception paths exist), and the INSERT handler keeps
at most one record per id. -/
theorem feed_handlers_tolerant
    (acts1 : List ActiveActivity) (row1 : ActivityRow) (tags1 : List String)
    (h1 : acts1.any (fun a => a.id == row1.id) = true)
    (acts2 : List ActiveActivity) (row2 : ActivityRow)
    (h2 : ∀ a ∈ acts2, a.id ≠ row2.id)
    (acts3 : List ActiveActivity) (oldId : String)
    (h3 : ∀ a ∈ acts3, a.id ≠ oldId)
    (acts4 : List ActiveActivity) (row4 : ActivityRow) (tags4 : List String)
    (h4 : (acts4.map fun a => a.id).Nodup) :
    applyInsert acts1 row1 tags1 = acts1
    ∧ applyUpdate acts2 row2 = acts2
    ∧ applyDelete acts3 oldId = acts3
    ∧ ((applyInsert acts4 row4 tags4).map fun a => a.id).Nodup :=
  ⟨by simp [applyInsert, h1], applyUpdate_absent acts2 row2 h2,
    applyDelete_absent acts3 oldId h3, applyInsert_nodup acts4 row4 tags4 h4⟩

/-- Witness for C7 at concrete one-record sets: an INSERT for the present
id "a", an UPDATE and a DELETE for the absent id "zz", and uniqueness after
inserting a fresh id. -/
theorem feed_handlers_tolerant_witness :
    applyInsert [sampleRunning] ⟨"a", "Write report", 0, 0, true, some 0, none⟩ []
      = [sampleRunning]
    ∧ applyUpdate [sampleRunning] ⟨"zz", "Ghost", 0, 0, false, some 0, none⟩
      = [sampleRunning]
    ∧ applyDelete [sampleRunning] "zz" = [sampleRunning]
    ∧ ((applyInsert [sampleRunning] ⟨"zz", "Ghost", 0, 0, false, some 0, none⟩
        []).map fun a => a.id).Nodup :=
  feed_handlers_tolerant
    [sampleRunning] ⟨"a", "Write report", 0, 0, true, some 0, none⟩ [] (by decide)
    [sampleRunning] ⟨"zz", "Ghost", 0, 0, false, some 0, none⟩ (by decide)
    [sampleRunning] "zz" (by decide)
    [sampleRunning] ⟨"zz", "Ghost", 0, 0, false, some 0, none⟩ [] (by decide)

/-! ## C8: cancel never reaches the Completion Sink -/

/-- C8: `cancelActivity` issues the storage delete for the id and performs
no Completion Sink invocation (its sink-call list is empty by construction,
mirroring the absence of any `onActivityComplete` call at lines 358-375);
the resulting realtime DELETE removes every record with that id — in
particular the cancelled record — and its handler (lines 206-213) contains
no sink call either, as `applyDelete` only filters the list. -/
theorem cancel_no_completion (acts : List ActiveActivity) (id : String)
    (a : ActiveActivity) (ha : a ∈ acts) (hid : a.id = id) :
    (cancelActivity id).1 = id
    ∧ (cancelActivity id).2 = []
    ∧ (∀ b ∈ applyDelete acts id, b.id ≠ id)
    ∧ a ∉ applyDelete acts id := by
  refine ⟨rfl, rfl, ?_, ?_⟩
  · intro b hb
    simp only [applyDelete, List.mem_filter, bne_iff_ne, ne_eq] at hb
    exact hb.2
  · intro hmem
    simp only [applyDelete, List.mem_filter, bne_iff_ne, ne_eq] at hmem
    exact hmem.2 hid

/-- Witness for C8 at the concrete paused record. -/
theorem cancel_no_completion_witness :
    (cancelActivity "b").1 = "b"
    ∧ (cancelActivity "b").2 = []
    ∧ (∀ b ∈ applyDelete [samplePaused] "b", b.id ≠ "b")
    ∧ samplePaused ∉ applyDelete [samplePaused] "b" :=
  cancel_no_completion [samplePaused] "b" samplePaused (by decide) (by decide)

/-! ## C9: storage requests and optimistic local updates -/

/-- C9 counterexample: after a successful `startNewActivity` the storage
INSERT has been issued, yet the local active set is still empty — the
in-memory set does not reflect the mutation when the call returns (the
record only arrives through the realtime INSERT event), contradicting the
claimed optimistic local update. -/
theorem startNew_not_optimistic_cex :
    (startNewActivity ⟨[], "Write report"⟩ "user1" 1000).2
      = some ⟨"user1", "Write report", 1000, 0, true, 0⟩
    ∧ (startNewActivity ⟨[], "Write report"⟩ "user1" 1000).1.activities = [] := by
  decide

/-- C9 amended: every local mutation issues its storage request
immediately, but the local set is not updated optimistically:
`startNewActivity` issues the INSERT and leaves `activities` unchanged
(the record arrives via the realtime feed), and `togglePause` issues the
UPDATE carrying the new flag and pause value while leaving the local set
unchanged (the flags likewise arrive via the feed); project and tag edits
update the local set only after their storage call succeeds. -/
theorem mutation_request_immediate (st : TimerState) (uid : String) (now : Int)
    (h : ¬ jsTrim st.newActivityName = "")
    (acts : List ActiveActivity) (id : String) (now2 : Int)
    (a : ActiveActivity) (hf : acts.find? (fun x => x.id == id) = some a) :
    (startNewActivity st uid now).1.activities = st.activities
    ∧ (startNewActivity st uid now).2
        = some ⟨uid, st.newActivityName, now, 0, true, 0⟩
    ∧ (togglePauseLocal acts id now2).1 = acts
    ∧ (togglePauseLocal acts id now2).2
        = some ⟨id, a.isPaused,
            if a.isPaused = true then
              a.pausedTime + (now2 - a.startTime - a.elapsedTime)
            else a.pausedTime,
            a.elapsedTime⟩ := by
  refine ⟨?_, ?_, ?_, ?_⟩
  · simp [startNewActivity, h]
  · simp [startNewActivity, h]
  · simp [togglePauseLocal, hf]
  · simp only [togglePauseLocal, hf]
    cases hp : a.isPaused <;> simp [hp]

/-- Witness for C9's amended statement: a valid start issues the INSERT
without touching the set, and a toggle on the concrete paused record
issues the resume UPDATE without touching the set. -/
theorem mutation_request_immediate_witness :
    (startNewActivity ⟨[], "Write report"⟩ "user1" 1000).1.activities = []
    ∧ (startNewActivity ⟨[], "Write report"⟩ "user1" 1000).2
        = some ⟨"user1", "Write report", 1000, 0, true, 0⟩
    ∧ (togglePauseLocal [samplePaused] "b" 2000).1 = [samplePaused]
    ∧ (togglePauseLocal [samplePaused] "b" 2000).2
        = some ⟨"b", samplePaused.isPaused,
            if samplePaused.isPaused = true then
              samplePaused.pausedTime
                + (2000 - samplePaused.startTime - samplePaused.elapsedTime)
            else samplePaused.pausedTime,
            samplePaused.elapsedTime⟩ :=
  mutation_request_immediate ⟨[], "Write report"⟩ "user1" 1000 (by decide)
    [samplePaused] "b" 2000 samplePaused (by decide)

/-! ## C10: tag toggling -/

/-- Membership in the toggled tag list: an element survives when it is a
different tag already present, and the toggled tag itself is present
afterwards exactly when it was absent before. -/
theorem mem_toggleTagIds (l : List String) (s t : String) :
    t ∈ toggleTagIds l s ↔ ((t ∈ l ∧ t ≠ s) ∨ (t = s ∧ s ∉ l)) := by
  unfold toggleTagIds
  cases h : l.contains s
  · have hs : s ∉ l := by simpa using h
    by_cases hts : t = s
    · subst hts; simp [hs]
    · simp [hts, hs]
  · have hs : s ∈ l := by simpa using h
    by_cases hts : t = s
    · subst hts; simp [hs, List.mem_filter]
    · simp [hts, hs, List.mem_filter]

/-- Toggling the same tag twice restores the tag set (membership-wise). -/
theorem mem_toggleTagIds_twice (l : List String) (s t : String) :
    t ∈ toggleTagIds (toggleTagIds l s) s ↔ t ∈ l := by
  simp only [mem_toggleTagIds]
  by_cases hts : t = s <;> by_cases hsl : s ∈ l <;> simp [hts, hsl]

/-- `toggleTagRecord` never changes a record's id. -/
theorem toggleTagRecord_id (id tagId : String) (b : ActiveActivity) :
    (toggleTagRecord id tagId b).id = b.id := by
  unfold toggleTagRecord; split <;> rfl

/-- `toggleTagRecord` changes no field other than the tag list. -/
theorem toggleTagRecord_frame (id tagId : String) (b : ActiveActivity) :
    (toggleTagRecord id tagId b).name = b.name
    ∧ (toggleTagRecord id tagId b).startTime = b.startTime
    ∧ (toggleTagRecord id tagId b).elapsedTime = b.elapsedTime
    ∧ (toggleTagRecord id tagId b).isRunning = b.isRunning
    ∧ (toggleTagRecord id tagId b).isPaused = b.isPaused
    ∧ (toggleTagRecord id tagId b).pausedTime = b.pausedTime
    ∧ (toggleTagRecord id tagId b).projectId = b.projectId := by
  unfold toggleTagRecord; split <;> simp

/-- Lookup by id commutes with mapping an id-preserving function. -/
theorem find?_map_id_preserving (g : ActiveActivity → ActiveActivity)
    (hg : ∀ x, (g x).id = x.id) (id : String) (acts : List ActiveActivity) :
    (acts.map g).find? (fun x => x.id == id)
      = (acts.find? (fun x => x.id == id)).map g := by
  induction acts with
  | nil => rfl
  | cons x xs ih =>
    simp only [List.map_cons, List.find?_cons, hg x]
    cases h : x.id == id
    · simpa [h] using ih
    · simp [h]

/-- When the looked-up record is the unique one with the given id,
`toggleActivityTag` is the map of `toggleTagRecord` over the set. -/
theorem toggleActivityTag_eq_map (acts : List ActiveActivity)
    (id tagId : String) (a : ActiveActivity)
    (hn : (acts.map fun x => x.id).Nodup)
    (ha : acts.find? (fun x => x.id == id) = some a) :
    toggleActivityTag acts id tagId = acts.map (toggleTagRecord id tagId) := by
  have hamem : a ∈ acts := List.mem_of_find?_eq_some ha
  simp only [toggleActivityTag, ha]
  apply List.map_congr_left
  intro b hb
  by_cases hbid : b.id = id
  · have haid : a.id = id := by simpa using List.find?_some ha
    have hba : b = a := List.inj_on_of_nodup_map hn hb hamem (by rw [hbid, haid])
    subst hba
    have hbeq : (b.id == id) = true := by simp [hbid]
    simp only [toggleTagRecord, toggleTagIds, hbeq, if_true]
    cases hc : b.tagIds.contains tagId <;> simp [hc]
  · simp [toggleTagRecord, hbid]

/-- On the record with the matching id, `toggleTagRecord` rewrites the tag
list with `toggleTagIds`. -/
theorem toggleTagRecord_tagIds (id tagId : String) (b : ActiveActivity)
    (h : b.id = id) :
    (toggleTagRecord id tagId b).tagIds = toggleTagIds b.tagIds tagId := by
  simp [toggleTagRecord, h]

/-- C10: for the record with the given id in a per-id-unique active set,
`toggleActivityTag` rewrites exactly that record's tag list — appending the
tag when absent, filtering it out when present (`toggleTagIds`) — so the
tag is a member afterwards exactly when it was not before; every other
field and every other record is unchanged; and toggling the same tag twice
restores the record's original tag set (membership-wise). -/
theorem toggleActivityTag_spec (acts : List ActiveActivity)
    (id tagId : String) (a : ActiveActivity)
    (hn : (acts.map fun x => x.id).Nodup)
    (ha : acts.find? (fun x => x.id == id) = some a) :
    toggleActivityTag acts id tagId = acts.map (toggleTagRecord id tagId)
    ∧ (toggleActivityTag acts id tagId).find? (fun x => x.id == id)
        = some (toggleTagRecord id tagId a)
    ∧ (toggleTagRecord id tagId a).tagIds = toggleTagIds a.tagIds tagId
    ∧ (tagId ∈ (toggleTagRecord id tagId a).tagIds ↔ tagId ∉ a.tagIds)
    ∧ (∀ b, (toggleTagRecord id tagId b).name = b.name
        ∧ (toggleTagRecord id tagId b).startTime = b.startTime
        ∧ (toggleTagRecord id tagId b).elapsedTime = b.elapsedTime
        ∧ (toggleTagRecord id tagId b).isRunning = b.isRunning
        ∧ (toggleTagRecord id tagId b).isPaused = b.isPaused
        ∧ (toggleTagRecord id tagId b).pausedTime = b.pausedTime
        ∧ (toggleTagRecord id tagId b).projectId = b.projectId)
    ∧ (∀ b ∈ acts, b.id ≠ id → b ∈ toggleActivityTag acts id tagId)
    ∧ (toggleActivityTag (toggleActivityTag acts id tagId) id tagId).find?
          (fun x => x.id == id)
        = some (toggleTagRecord id tagId (toggleTagRecord id tagId a))
    ∧ (∀ t,
        t ∈ (toggleTagRecord id tagId (toggleTagRecord id tagId a)).tagIds
          ↔ t ∈ a.tagIds) := by
  have haid : a.id = id := by simpa using List.find?_some ha
  have heq1 := toggleActivityTag_eq_map acts id tagId a hn ha
  have hfind1 : (acts.map (toggleTagRecord id tagId)).find?
      (fun x => x.id == id) = some (toggleTagRecord id tagId a) := by
    rw [find?_map_id_preserving (toggleTagRecord id tagId)
      (toggleTagRecord_id id tagId) id acts, ha]
    rfl
  have hids : ((acts.map (toggleTagRecord id tagId)).map fun x => x.id)
      = acts.map fun x => x.id := by
    rw [List.map_map]
    exact List.map_congr_left fun b _ => toggleTagRecord_id id tagId b
  have hn2 : ((acts.map (toggleTagRecord id tagId)).map fun x => x.id).Nodup := by
    rw [hids]; exact hn
  have heq2 := toggleActivityTag_eq_map (acts.map (toggleTagRecord id tagId))
    id tagId (toggleTagRecord id tagId a) hn2 hfind1
  have htag1 : (toggleTagRecord id tagId a).tagIds
      = toggleTagIds a.tagIds tagId :=
    toggleTagRecord_tagIds id tagId a haid
  have htag2 : (toggleTagRecord id tagId (toggleTagRecord id tagId a)).tagIds
      = toggleTagIds (toggleTagIds a.tagIds tagId) tagId := by
    rw [toggleTagRecord_tagIds id tagId (toggleTagRecord id tagId a)
      (by rw [toggleTagRecord_id id tagId a]; exact haid), htag1]
  refine ⟨heq1, by rw [heq1]; exact hfind1, htag1, ?_, ?_, ?_, ?_, ?_⟩
  · rw [htag1]
    simp [mem_toggleTagIds]
  · intro b
    exact toggleTagRecord_frame id tagId b
  · intro b hb hbid
    have hfix : toggleTagRecord id tagId b = b := by
      simp [toggleTagRecord, hbid]
    rw [heq1, ← hfix]
    exact List.mem_map_of_mem _ hb
  · rw [heq1, heq2,
      find?_map_id_preserving (toggleTagRecord id tagId)
        (toggleTagRecord_id id tagId) id (acts.map (toggleTagRecord id tagId)),
      hfind1]
    rfl
  · intro t
    rw [htag2]
    exact mem_toggleTagIds_twice a.tagIds tagId t

/-- Witness for C10 at the concrete paused record, which carries tag "t1":
toggling "t1" on the one-record set. -/
theorem toggleActivityTag_spec_witness :
    toggleActivityTag [samplePaused] "b" "t1"
        = [samplePaused].map (toggleTagRecord "b" "t1")
    ∧ (toggleActivityTag [samplePaused] "b" "t1").find? (fun x => x.id == "b")
        = some (toggleTagRecord "b" "t1" samplePaused)
    ∧ (toggleTagRecord "b" "t1" samplePaused).tagIds
        = toggleTagIds samplePaused.tagIds "t1"
    ∧ ("t1" ∈ (toggleTagRecord "b" "t1" samplePaused).tagIds
        ↔ "t1" ∉ samplePaused.tagIds)
    ∧ (∀ b, (toggleTagRecord "b" "t1" b).name = b.name
        ∧ (toggleTagRecord "b" "t1" b).startTime = b.startTime
        ∧ (toggleTagRecord "b" "t1" b).elapsedTime = b.elapsedTime
        ∧ (toggleTagRecord "b" "t1" b).isRunning = b.isRunning
        ∧ (toggleTagRecord "b" "t1" b).isPaused = b.isPaused
        ∧ (toggleTagRecord "b" "t1" b).pausedTime = b.pausedTime
        ∧ (toggleTagRecord "b" "t1" b).projectId = b.projectId)
    ∧ (∀ b ∈ [samplePaused], b.id ≠ "b" →
        b ∈ toggleActivityTag [samplePaused] "b" "t1")
    ∧ (toggleActivityTag (toggleActivityTag [samplePaused] "b" "t1") "b"
          "t1").find? (fun x => x.id == "b")
        = some (toggleTagRecord "b" "t1" (toggleTagRecord "b" "t1" samplePaused))
    ∧ (∀ t,
        t ∈ (toggleTagRecord "b" "t1"
            (toggleTagRecord "b" "t1" samplePaused)).tagIds
          ↔ t ∈ samplePaused.tagIds) :=
  toggleActivityTag_spec [samplePaused] "b" "t1" samplePaused (by decide)
    (by decide)

end PslTracker
